import Mathlib

set_option linter.unusedVariables false

/-! Shallow embedding of the live-chat routing server of src/index.py.

The durable MySQL tables are modelled as lists of rows kept in insertion
order; a SELECT without ORDER BY is modelled as returning rows in that order,
and an UPDATE rewrites every matching row in place.  The store's UNIQUE and
foreign-key constraints are modelled at the writes that can violate them: the
users/conversations inserts of the assignment path, and the ensure-user
insert and agent-role conversation writes of send_message; the agents insert
is guarded by a SELECT in the source and the handlers keep agent ids unique
(proved below), so it never violates its key.  Tenant and feedback columns are never
touched by the handlers under study and are omitted, as are display-name
payload fields of outbound events that no handler reads back.
`datetime.now()` is modelled by an explicit `Time` argument to each handler,
and every handler also returns the ordered list of `Act`s it performed:
database statements, the transaction commit or rollback issued when the
`get_db_cursor` context manager exits, and the socket emits, in source order. -/

abbrev Time := Nat

/-- Row of the `agents` table (tenant column omitted, never written). -/
structure AgentRow where
  agent_connection_id : String
  agent_name : Option String
  domain : String
  status : String
  user_count : Int
  last_update : Time
deriving Repr, DecidableEq

/-- Row of the `users` table (tenant column omitted). -/
structure UserRow where
  user_connection_id : String
  user_id : Option String
  user_name : Option String
  agent_connection_id : Option String
  connection_time : Time
  disconnection_time : Option Time
deriving Repr, DecidableEq

/-- One entry of a conversation's JSON `messages` blob. -/
structure Message where
  timestamp : Time
  sender : String
  message : String
  image : Option String
deriving Repr, DecidableEq

/-- Row of the `conversations` table.  `status` is `none` when the column was
left NULL (the user-role insert of `send_message` does not set it). -/
structure ConvRow where
  user_connection_id : String
  agent_connection_id : Option String
  user_name : Option String
  messages : List Message
  last_update : Time
  status : Option Bool
deriving Repr, DecidableEq

/-- The durable store. -/
structure DB where
  agents : List AgentRow
  users : List UserRow
  conversations : List ConvRow
deriving Repr, DecidableEq

/-- A value of the `users_mapping` dict: user keys hold the assigned agent id
(a plain string in the source), agent keys hold the list of assigned users. -/
inductive MapVal where
  | toAgent (a : String)
  | toUsers (us : List String)
deriving Repr, DecidableEq

/-- A value of the in-memory `agents` dict. -/
structure AgentMem where
  status : String
  domain : String
  agent_name : Option String
deriving Repr, DecidableEq

/-- The process-wide in-memory dicts, as insertion-ordered association lists. -/
structure Mem where
  agents : List (String × AgentMem)
  users_mapping : List (String × MapVal)
  agent_queues : List (String × List String)
deriving Repr, DecidableEq

/-- Full server state: durable store plus in-memory dicts. -/
structure ServerState where
  db : DB
  mem : Mem
deriving Repr, DecidableEq

def initialState : ServerState := ⟨⟨[], [], []⟩, ⟨[], [], []⟩⟩

/-! ### Python dict operations on association lists -/

/-- `m.get(k)`. -/
def dictGet {α : Type} : List (String × α) → String → Option α
  | [], _ => none
  | p :: m, k => if p.1 = k then some p.2 else dictGet m k

/-- `m[k] = v`: replace in place, or append when the key is new. -/
def dictSet {α : Type} : List (String × α) → String → α → List (String × α)
  | [], k, v => [(k, v)]
  | p :: m, k, v => if p.1 = k then (k, v) :: m else p :: dictSet m k v

/-- `m.pop(k, None)` / `del m[k]`. -/
def dictPop {α : Type} (m : List (String × α)) (k : String) : List (String × α) :=
  m.filter fun p => p.1 != k

/-- Python truthiness of an optional string: `None` and `""` are falsy. -/
def truthy : Option String → Option String
  | some s => if s = "" then none else some s
  | none => none

/-! ### SQL helpers over the modelled tables -/

/-- UPDATE ... WHERE: rewrite every matching row in place. -/
def updateWhere {α : Type} (p : α → Bool) (f : α → α) (l : List α) : List α :=
  l.map fun x => if p x then f x else x

/-- SELECT ... FROM agents WHERE agent_connection_id = i (first match). -/
def findAgent : List AgentRow → String → Option AgentRow
  | [], _ => none
  | r :: l, i => if r.agent_connection_id = i then some r else findAgent l i

/-- SELECT ... FROM users WHERE user_connection_id = u (first match). -/
def findUser : List UserRow → String → Option UserRow
  | [], _ => none
  | w :: l, u => if w.user_connection_id = u then some w else findUser l u

/-- SELECT ... FROM conversations WHERE user_connection_id = u (first match). -/
def findConv : List ConvRow → String → Option ConvRow
  | [], _ => none
  | c :: l, u => if c.user_connection_id = u then some c else findConv l u

/-- SELECT ... FROM conversations WHERE user_connection_id = u AND status = TRUE. -/
def findActiveConv : List ConvRow → String → Option ConvRow
  | [], _ => none
  | c :: l, u =>
    if c.user_connection_id = u ∧ c.status = some true then some c
    else findActiveConv l u

/-- SELECT ... FROM agents WHERE domain = d AND status = 'online'. -/
def onlineAgentsIn (l : List AgentRow) (d : String) : List AgentRow :=
  l.filter fun r => r.domain == d && r.status == "online"

/-- Maximum users allowed per agent (src/index.py line 163). -/
def MAX_USERS_PER_AGENT : Int := 2

/-- The under-capacity filter applied to the online agents of the domain. -/
def eligibleIn (l : List AgentRow) (d : String) : List AgentRow :=
  (onlineAgentsIn l d).filter fun r => decide (r.user_count < MAX_USERS_PER_AGENT)

/-- `available_agents.sort(key=user_count); available_agents[0]`: Python's
sort is stable, modelled by Mathlib's (stable) insertion sort. -/
def chosenAgent (l : List AgentRow) (d : String) : Option AgentRow :=
  (List.insertionSort (fun x y : AgentRow => x.user_count ≤ y.user_count)
    (eligibleIn l d)).head?

/-! ### Actions and emitted events -/

/-- Outbound socket events, in the payload shape the handlers send. -/
inductive Emit where
  | errorMsg (message room : String)
  | noAgentsAvailable (message room : String)
  | agentStatusBroadcast (agent_connection_id : Option String) (status : String)
  | liveChatConnected (agent : Option String) (room : String) (messages : List Message)
  | liveChatReconnected (agent : Option String) (room : String) (messages : List Message)
  | newLiveChat (user room : String)
  | userReconnected (user : String) (room : Option String)
  | receiveMessage (fromId message room : String)
  | chatEnded (partner room : String)
deriving Repr, DecidableEq

inductive ReadTag where
  | agentById | userById | activeConvByUser | convByUser | onlineAgentsByDomain
deriving Repr, DecidableEq

inductive WriteTag where
  | agentsUpdate | agentsInsert | agentsIncrement | agentsDecrement | agentsOffline
  | usersInsert | usersUpdate | conversationsInsert | conversationsUpdate
deriving Repr, DecidableEq

/-- One observable step of a handler, in source order. -/
inductive Act where
  | dbRead (t : ReadTag)
  | dbWrite (t : WriteTag)
  | dbCommit
  | dbRollback
  | emit (e : Emit)
deriving Repr, DecidableEq

/-- The emits of a trace, in order. -/
def emittedOf (tr : List Act) : List Emit :=
  tr.filterMap fun a => match a with | .emit e => some e | _ => none

/-! ### users_mapping and agent_queues mutations -/

/-- `users_mapping.setdefault(k, []).append(u)`.  When the key unexpectedly
holds a string (only possible if a user key doubles as an agent key) the
source would raise AttributeError; no handler path exercised below does. -/
def mappingAppend (m : List (String × MapVal)) (k u : String) : List (String × MapVal) :=
  match dictGet m k with
  | some (.toUsers us) => dictSet m k (.toUsers (us ++ [u]))
  | some (.toAgent _) => m
  | none => dictSet m k (.toUsers [u])

/-- `agent_queues.setdefault(d, deque()).append(a)`. -/
def queueAppend (qs : List (String × List String)) (d a : String) :
    List (String × List String) :=
  match dictGet qs d with
  | some q => dictSet qs d (q ++ [a])
  | none => qs ++ [(d, [a])]

def register_agent_core (failWrite : Bool)
    (domain old_agent_id agent_name : Option String) (sid : String) (now : Time)
    (s : ServerState) : ServerState × Option String × List Act :=
  match truthy domain with
  | none => (s, none, [.emit (.errorMsg "Domain is required to register as an agent" sid)])
  | some d =>
    let aid := old_agent_id.getD sid
    match findAgent s.db.agents aid with
    | some _ =>
      let old_domain := (dictGet s.mem.agents aid).map (·.domain)
      let queues1 :=
        match old_domain with
        | some od =>
          if od ≠ "" ∧ od ≠ d then
            match dictGet s.mem.agent_queues od with
            | some q => dictSet s.mem.agent_queues od (q.erase aid)
            | none => s.mem.agent_queues
          else s.mem.agent_queues
        | none => s.mem.agent_queues
      if failWrite then
        (⟨s.db, { s.mem with agent_queues := queues1 }⟩, none,
         [.dbRead .agentById, .dbWrite .agentsUpdate, .dbRollback,
          .emit (.errorMsg "Failed to register agent due to a database error." sid)])
      else
        let agents' := updateWhere (fun r => r.agent_connection_id == aid)
          (fun r => { r with status := "online", last_update := now,
                             domain := d, agent_name := agent_name }) s.db.agents
        (⟨{ s.db with agents := agents' },
          { s.mem with agents := dictSet s.mem.agents aid ⟨"online", d, agent_name⟩,
                       agent_queues := queueAppend queues1 d aid }⟩,
         some aid,
         [.dbRead .agentById, .dbWrite .agentsUpdate,
          .emit (.agentStatusBroadcast (some aid) "online"), .dbCommit])
    | none =>
      let mem' := { s.mem with
        agents := dictSet s.mem.agents aid ⟨"online", d, agent_name⟩,
        agent_queues := queueAppend s.mem.agent_queues d aid }
      if failWrite then
        (⟨s.db, mem'⟩, none,
         [.dbRead .agentById, .dbWrite .agentsInsert, .dbRollback,
          .emit (.errorMsg "Failed to register agent due to a database error." sid)])
      else
        (⟨{ s.db with agents := s.db.agents ++ [⟨aid, agent_name, d, "online", 0, now⟩] },
          mem'⟩,
         some aid,
         [.dbRead .agentById, .dbWrite .agentsInsert,
          .emit (.agentStatusBroadcast (some aid) "online"), .dbCommit])

def register_agent (domain old_agent_id agent_name : Option String) (sid : String)
    (now : Time) (s : ServerState) : ServerState × Option String × List Act :=
  register_agent_core false domain old_agent_id agent_name sid now s

def register_agent_dbFail (domain old_agent_id agent_name : Option String) (sid : String)
    (now : Time) (s : ServerState) : ServerState × Option String × List Act :=
  register_agent_core true domain old_agent_id agent_name sid now s

/-! ### agent_offline (src/index.py lines 251-276) -/

def handle_agent_offline (agent_id : Option String) (now : Time) (s : ServerState) :
    ServerState × List Act :=
  let agents' :=
    match agent_id with
    | some a => updateWhere (fun r => r.agent_connection_id == a)
        (fun r => { r with status := "offline", last_update := now }) s.db.agents
    | none => s.db.agents
  let domainOpt :=
    match agent_id with
    | some a => (dictGet s.mem.agents a).map (·.domain)
    | none => none
  let memAgents :=
    match agent_id with
    | some a => dictPop s.mem.agents a
    | none => s.mem.agents
  let queues' :=
    match agent_id, domainOpt with
    | some a, some dm =>
      if dm ≠ "" ∧ a ∈ ((dictGet s.mem.agent_queues dm).getD []) then
        dictSet s.mem.agent_queues dm (((dictGet s.mem.agent_queues dm).getD []).erase a)
      else s.mem.agent_queues
    | _, _ => s.mem.agent_queues
  (⟨{ s.db with agents := agents' },
    { s.mem with agents := memAgents, agent_queues := queues' }⟩,
   [.dbWrite .agentsOffline, .dbCommit,
    .emit (.agentStatusBroadcast agent_id "offline")])

/-! ### request_live_chat (src/index.py lines 279-398) -/

inductive ChatResult where
  | noDomain
  | resumed (u : String)
  | noneAvailable
  | allAtCapacity
  | connected (u a : String)
  | dbError
deriving Repr, DecidableEq

/-- `data.get('old_user_id') or request.sid`. -/
def chatUserId (old_user_id : Option String) (sid : String) : String :=
  (truthy old_user_id).getD sid

/-- Does the requester already have a users row and an active conversation? -/
def canResume (db : DB) (u : String) : Option ConvRow :=
  match findUser db.users u with
  | some _ => findActiveConv db.conversations u
  | none => none

/-- Resume branch, lines 306-333 (actions start after the two SELECTs).  When
the stored conversation has a NULL agent the source would bind the user to a
missing id; no reachable active conversation lacks an agent, and the mapping
write is skipped in the model for that corner. -/
def resumePath (u : String) (user_name : Option String) (conv : ConvRow) (now : Time)
    (s : ServerState) : ServerState × ChatResult × List Act :=
  let users' := updateWhere (fun w => w.user_connection_id == u)
    (fun w => { w with connection_time := now, disconnection_time := none }) s.db.users
  let mapping :=
    match conv.agent_connection_id with
    | some a => mappingAppend (dictSet s.mem.users_mapping u (.toAgent a)) a u
    | none => s.mem.users_mapping
  (⟨{ s.db with users := users' }, { s.mem with users_mapping := mapping }⟩,
   .resumed u,
   [.dbWrite .usersUpdate,
    .emit (.liveChatReconnected conv.agent_connection_id u conv.messages),
    .emit (.userReconnected u conv.agent_connection_id),
    .dbCommit])

/-- Assignment branch, lines 336-394.  The INSERT INTO users at line 371 hits
the UNIQUE constraint on users.user_connection_id whenever the requester
already has a users row (for instance after end_chat), and the INSERT INTO
conversations at line 379 hits the UNIQUE key on its user_connection_id
likewise; either raise rolls the transaction (including the load increment)
back inside get_db_cursor, after which the except handler sends the error
event to the requester, while the users_mapping mutations made just before
the first insert survive.  `failUsersInsert = true` models the store itself
failing at the users insert, with the same outcome. -/
def assignPath (failUsersInsert : Bool) (d u : String)
    (user_id user_name : Option String) (now : Time) (s : ServerState) :
    ServerState × ChatResult × List Act :=
  let available := onlineAgentsIn s.db.agents d
  if available.isEmpty then
    (s, .noneAvailable,
     [.dbRead .onlineAgentsByDomain,
      .emit (.noAgentsAvailable "No agents available" u), .dbCommit])
  else
    match chosenAgent s.db.agents d with
    | none =>
      (s, .allAtCapacity,
       [.dbRead .onlineAgentsByDomain,
        .emit (.noAgentsAvailable "All agents are currently busy. Please try again later." u),
        .dbCommit])
    | some chosen =>
      let a := chosen.agent_connection_id
      let mapping := mappingAppend (dictSet s.mem.users_mapping u (.toAgent a)) a u
      if failUsersInsert || (findUser s.db.users u).isSome then
        (⟨s.db, { s.mem with users_mapping := mapping }⟩, .dbError,
         [.dbRead .onlineAgentsByDomain, .dbWrite .agentsIncrement, .dbWrite .usersInsert,
          .dbRollback,
          .emit (.errorMsg "Failed to assign live chat due to a database error." u)])
      else if (findConv s.db.conversations u).isSome then
        (⟨s.db, { s.mem with users_mapping := mapping }⟩, .dbError,
         [.dbRead .onlineAgentsByDomain, .dbWrite .agentsIncrement, .dbWrite .usersInsert,
          .dbWrite .conversationsInsert, .dbRollback,
          .emit (.errorMsg "Failed to assign live chat due to a database error." u)])
      else
        let agents' := updateWhere (fun r => r.agent_connection_id == a)
          (fun r => { r with user_count := r.user_count + 1, last_update := now })
          s.db.agents
        (⟨⟨agents',
           s.db.users ++ [⟨u, user_id, user_name, some a, now, none⟩],
           s.db.conversations ++ [⟨u, some a, user_name, [], now, some true⟩]⟩,
          { s.mem with users_mapping := mapping }⟩,
         .connected u a,
         [.dbRead .onlineAgentsByDomain, .dbWrite .agentsIncrement,
          .dbWrite .usersInsert, .dbWrite .conversationsInsert,
          .emit (.liveChatConnected (some a) u []), .emit (.newLiveChat u a), .dbCommit])

def prependReads (acts : List Act) :
    ServerState × ChatResult × List Act → ServerState × ChatResult × List Act
  | (s, r, tr) => (s, r, acts ++ tr)

def request_live_chat_core (failUsersInsert : Bool)
    (domain old_user_id user_id user_name : Option String) (sid : String) (now : Time)
    (s : ServerState) : ServerState × ChatResult × List Act :=
  let u := chatUserId old_user_id sid
  match truthy domain with
  | none => (s, .noDomain, [.emit (.noAgentsAvailable "Domain is required" u)])
  | some d =>
    match findUser s.db.users u with
    | some _ =>
      match findActiveConv s.db.conversations u with
      | some conv =>
        prependReads [.dbRead .userById, .dbRead .activeConvByUser]
          (resumePath u user_name conv now s)
      | none =>
        prependReads [.dbRead .userById, .dbRead .activeConvByUser]
          (assignPath failUsersInsert d u user_id user_name now s)
    | none =>
      prependReads [.dbRead .userById]
        (assignPath failUsersInsert d u user_id user_name now s)

def request_live_chat (domain old_user_id user_id user_name : Option String)
    (sid : String) (now : Time) (s : ServerState) :
    ServerState × ChatResult × List Act :=
  request_live_chat_core false domain old_user_id user_id user_name sid now s

def request_live_chat_dbFail (domain old_user_id user_id user_name : Option String)
    (sid : String) (now : Time) (s : ServerState) :
    ServerState × ChatResult × List Act :=
  request_live_chat_core true domain old_user_id user_id user_name sid now s

/-! ### send_message (src/index.py lines 435-522) -/

/-- `role = "agent" if persistent_sender in agents else "user"` (line 451):
membership in the in-memory dict, which holds only currently-online agents. -/
def senderRole (s : ServerState) (sender : String) : String :=
  if (dictGet s.mem.agents sender).isSome then "agent" else "user"

/-- Line 462: the transcript key is the user side of the conversation. -/
def conversationKey (role sender recipient : String) : String :=
  if role = "user" then sender else recipient

/-- send_message, src/index.py lines 435-522.  The store's constraints are
modelled at each write.  The ensure-user INSERT at line 470 puts the sender's
own id into the agents foreign-key column when the role is user (NULL for the
agent role), so it raises unless that id is a durable agents row.  The
agent-role conversation UPDATE at 489 and INSERT at 504 bind
agent_connection_id to the sender, raising when the sender has no durable
agents row (an agent known only to the in-memory registry after a failed
durable registration).  A raise rolls the transaction back inside
get_db_cursor, then the except handler sends the error event to the sender
and returns, so nothing is forwarded to the recipient. -/
def send_message (persistent_id recipient_id message image : Option String)
    (sid : String) (now : Time) (s : ServerState) : ServerState × List Act :=
  let p := persistent_id.getD sid
  let text := (message.getD "").trim
  match truthy recipient_id with
  | none => (s, [])
  | some recip =>
    let role := senderRole s p
    let key := conversationKey role p recip
    let newMsg : Message := ⟨now, role, text, image⟩
    if findUser s.db.users key = none ∧ role = "user" ∧
        findAgent s.db.agents p = none then
      (s, [.dbRead .userById, .dbWrite .usersInsert, .dbRollback,
           .emit (.errorMsg "Failed to send message due to a database error." p)])
    else
      let users1 :=
        match findUser s.db.users key with
        | some _ => s.db.users
        | none =>
          s.db.users ++ [⟨key, none, none, if role = "user" then some p else none, now, none⟩]
      let userActs :=
        match findUser s.db.users key with
        | some _ => ([] : List Act)
        | none => [Act.dbWrite .usersInsert]
      match findConv s.db.conversations key with
      | some conv =>
        if role = "agent" ∧ findAgent s.db.agents p = none then
          (s, [.dbRead .userById] ++ userActs ++
              [.dbRead .convByUser, .dbWrite .conversationsUpdate, .dbRollback,
               .emit (.errorMsg "Failed to send message due to a database error." p)])
        else
          let msgs := conv.messages ++ [newMsg]
          let convs' :=
            if role = "agent" then
              updateWhere (fun c => c.user_connection_id == key)
                (fun c => { c with messages := msgs, last_update := now,
                                   agent_connection_id := some p, status := some true })
                s.db.conversations
            else
              updateWhere (fun c => c.user_connection_id == key)
                (fun c => { c with messages := msgs, last_update := now })
                s.db.conversations
          (⟨{ s.db with users := users1, conversations := convs' }, s.mem⟩,
           [.dbRead .userById] ++ userActs ++
           [.dbRead .convByUser, .dbWrite .conversationsUpdate, .dbCommit,
            .emit (.receiveMessage p text recip)])
      | none =>
        if role = "agent" ∧ findAgent s.db.agents p = none then
          (s, [.dbRead .userById] ++ userActs ++
              [.dbRead .convByUser, .dbWrite .conversationsInsert, .dbRollback,
               .emit (.errorMsg "Failed to send message due to a database error." p)])
        else
          let newConv : ConvRow :=
            if role = "agent" then ⟨key, some p, none, [newMsg], now, some true⟩
            else ⟨key, none, none, [newMsg], now, none⟩
          (⟨{ s.db with users := users1, conversations := s.db.conversations ++ [newConv] },
            s.mem⟩,
           [.dbRead .userById] ++ userActs ++
           [.dbRead .convByUser, .dbWrite .conversationsInsert, .dbCommit,
            .emit (.receiveMessage p text recip)])

/-! ### end_chat (src/index.py lines 525-567) -/

def end_chat (user_connection_id : String) (now : Time) (s : ServerState) :
    ServerState × List Act :=
  match dictGet s.mem.users_mapping user_connection_id with
  | some (.toAgent a) =>
    if a = "" then (s, [])
    else
      let convs' := updateWhere (fun c => c.user_connection_id == user_connection_id)
        (fun c => { c with status := some false, last_update := now }) s.db.conversations
      let users' := updateWhere (fun w => w.user_connection_id == user_connection_id)
        (fun w => { w with disconnection_time := some now }) s.db.users
      let agents' := updateWhere (fun r => r.agent_connection_id == a)
        (fun r => { r with user_count := max 0 (r.user_count - 1), last_update := now })
        s.db.agents
      let m1 := dictPop s.mem.users_mapping user_connection_id
      let m2 :=
        match dictGet m1 a with
        | some (.toUsers us) => dictSet m1 a (.toUsers (us.erase user_connection_id))
        | _ => m1
      (⟨⟨agents', users', convs'⟩, { s.mem with users_mapping := m2 }⟩,
       [.dbWrite .conversationsUpdate, .dbWrite .usersUpdate, .dbWrite .agentsDecrement,
        .dbCommit,
        .emit (.chatEnded user_connection_id a),
        .emit (.chatEnded a user_connection_id)])
  | some (.toUsers us) =>
    if us.isEmpty then (s, [])
    else
      (s, [.dbWrite .conversationsUpdate, .dbWrite .usersUpdate, .dbRollback])
  | none => (s, [])

/-! ### disconnect (src/index.py lines 570-606) -/

def handle_disconnect (sid : String) (now : Time) (s : ServerState) :
    ServerState × List Act :=
  let step1 : ServerState × List Act :=
    match dictGet s.mem.agents sid with
    | some am =>
      let queues' :=
        match dictGet s.mem.agent_queues am.domain with
        | some q =>
          if sid ∈ q then dictSet s.mem.agent_queues am.domain (q.erase sid)
          else s.mem.agent_queues
        | none => s.mem.agent_queues
      let agents' := updateWhere (fun r => r.agent_connection_id == sid)
        (fun r => { r with status := "offline", last_update := now }) s.db.agents
      ((⟨{ s.db with agents := agents' },
         { s.mem with agents := dictPop s.mem.agents sid, agent_queues := queues' }⟩ :
          ServerState),
       [Act.dbWrite .agentsOffline, .dbCommit,
        .emit (.agentStatusBroadcast (some sid) "offline")])
    | none => (s, ([] : List Act))
  let s1 := step1.1
  let acts1 := step1.2
  let popped := dictGet s1.mem.users_mapping sid
  let mem2 := { s1.mem with users_mapping := dictPop s1.mem.users_mapping sid }
  match popped with
  | some (.toAgent a) =>
    if a = "" then (⟨s1.db, mem2⟩, acts1)
    else
      let users' := updateWhere (fun w => w.user_connection_id == sid)
        (fun w => { w with disconnection_time := some now }) s1.db.users
      let mapping2 :=
        match dictGet mem2.users_mapping a with
        | some (.toUsers us) => dictSet mem2.users_mapping a (.toUsers (us.erase sid))
        | _ => mem2.users_mapping
      (⟨{ s1.db with users := users' }, { mem2 with users_mapping := mapping2 }⟩,
       acts1 ++ [.dbWrite .usersUpdate, .dbCommit, .emit (.chatEnded sid a)])
  | some (.toUsers us) =>
    if us.isEmpty then (⟨s1.db, mem2⟩, acts1)
    else
      let users' := updateWhere (fun w => w.user_connection_id == sid)
        (fun w => { w with disconnection_time := some now }) s1.db.users
      (⟨{ s1.db with users := users' }, mem2⟩,
       acts1 ++ [.dbWrite .usersUpdate, .dbCommit])
  | none => (⟨s1.db, mem2⟩, acts1)

/-! ### Event traces -/

inductive Event where
  | register (domain old_agent_id agent_name : Option String) (sid : String) (t : Time)
  | registerDbFail (domain old_agent_id agent_name : Option String) (sid : String) (t : Time)
  | agentOffline (agent_id : Option String) (t : Time)
  | requestChat (domain old_user_id user_id user_name : Option String) (sid : String) (t : Time)
  | requestChatDbFail (domain old_user_id user_id user_name : Option String) (sid : String) (t : Time)
  | sendMessage (persistent_id recipient_id message image : Option String) (sid : String) (t : Time)
  | endChat (user_connection_id : String) (t : Time)
  | disconnect (sid : String) (t : Time)
deriving Repr, DecidableEq

def execEvent : Event → ServerState → ServerState
  | .register dm oa an sid t, s => (register_agent dm oa an sid t s).1
  | .registerDbFail dm oa an sid t, s => (register_agent_dbFail dm oa an sid t s).1
  | .agentOffline a t, s => (handle_agent_offline a t s).1
  | .requestChat dm ou ui un sid t, s => (request_live_chat dm ou ui un sid t s).1
  | .requestChatDbFail dm ou ui un sid t, s => (request_live_chat_dbFail dm ou ui un sid t s).1
  | .sendMessage p r m i sid t, s => (send_message p r m i sid t s).1
  | .endChat u t, s => (end_chat u t s).1
  | .disconnect sid t, s => (handle_disconnect sid t s).1

/-- The state reached from the empty server by a sequence of events. -/
def run (es : List Event) : ServerState :=
  es.foldl (fun s e => execEvent e s) initialState

/-! ### Stable sort takes the earliest minimum -/

/-- The first element with minimal `user_count` (the specification-side
description of what a stable sort followed by taking the head produces). -/
def firstMinByCount : List AgentRow → Option AgentRow
  | [] => none
  | a :: l =>
    match firstMinByCount l with
    | none => some a
    | some m => some (if m.user_count < a.user_count then m else a)

/-- `r` occurs in `l`, every element before it has strictly larger load, and
every element after it has load at least as large: `r` is the earliest
element of `l` attaining the minimum load. -/
def IsFirstMin (l : List AgentRow) (r : AgentRow) : Prop :=
  ∃ l₁ l₂, l = l₁ ++ r :: l₂ ∧ (∀ x ∈ l₁, r.user_count < x.user_count) ∧
    ∀ x ∈ l₂, r.user_count ≤ x.user_count

/-! ### The agents-table invariant: distinct ids, load within capacity -/

def agentsOk (l : List AgentRow) : Prop :=
  l.Pairwise (fun r₁ r₂ => r₁.agent_connection_id ≠ r₂.agent_connection_id) ∧
  ∀ r ∈ l, r.user_count ≤ MAX_USERS_PER_AGENT

/-- A domain with one agent already serving two users (the capacity). -/
def busyState : ServerState :=
  run [.register (some "d") none (some "n1") "A1" 0,
       .requestChat (some "d") (some "U1") none none "x" 1,
       .requestChat (some "d") (some "U2") none none "x" 2]

/-- A domain with agent A1 serving user U1 (active conversation, mapping set). -/
def chatState : ServerState :=
  run [.register (some "d") none (some "n1") "A1" 0,
       .requestChat (some "d") (some "U1") (some "uid1") (some "un1") "x" 2]

/-- A domain with agent A1 online and its chat with U1 ended by end_chat. -/
def endedState : ServerState :=
  run [.register (some "d") none (some "n1") "A1" 0,
       .requestChat (some "d") (some "U1") (some "uid1") (some "un1") "x" 2,
       .endChat "U1" 7]

/-- A domain with a single online agent A1 holding no users. -/
def agentOnlyState : ServerState :=
  run [.register (some "d") none (some "n1") "A1" 0]

/-! ### Trace-shape predicates for the ordering claim -/

def Act.isEmit : Act → Bool
  | .emit _ => true
  | _ => false

/-- A domain whose only agent A1 has gone offline via agent_offline: the
durable Agent record remains (status offline) but the in-memory registry no
longer holds A1. -/
def offlineAgentState : ServerState :=
  run [.register (some "d") none (some "n1") "A1" 0,
       .agentOffline (some "A1") 1]

/-- A state holding an ended conversation between U1 and agent A2, plus a
phantom agent A1: A1 is in the in-memory registry and domain queue, but its
durable INSERT failed, so the agents table has no A1 row. -/
def phantomState : ServerState :=
  run [.register (some "d") none (some "n2") "A2" 0,
       .requestChat (some "d") (some "U1") (some "uid1") (some "un1") "x" 1,
       .endChat "U1" 2,
       .registerDbFail (some "d") none (some "n1") "A1" 3]

/-! ### Lemmas and claim theorems -/

/-! ### register_agent (src/index.py lines 173-248)

`failWrite = true` models the durable write (UPDATE for an existing agent,
INSERT for a new one) raising: the transaction is rolled back, the error event
goes to the requesting socket, and only the in-memory mutations already made
before the raise survive. -/

/-! ### Association-list lemmas -/

theorem dictGet_dictSet_self {α : Type} (m : List (String × α)) (k : String) (v : α) :
    dictGet (dictSet m k v) k = some v := by
  induction m with
  | nil => simp [dictSet, dictGet]
  | cons p m ih =>
    by_cases h : p.1 = k
    · simp [dictSet, dictGet, h]
    · simp [dictSet, dictGet, h, ih]

theorem dictGet_dictSet_ne {α : Type} (m : List (String × α)) (k k' : String) (v : α)
    (h : k' ≠ k) : dictGet (dictSet m k v) k' = dictGet m k' := by
  induction m with
  | nil => simp [dictSet, dictGet, Ne.symm h]
  | cons p m ih =>
    by_cases hp : p.1 = k
    · have hp' : p.1 ≠ k' := by rw [hp]; exact Ne.symm h
      simp [dictSet, dictGet, hp, hp', Ne.symm h]
    · simp [dictSet, dictGet, hp, ih]

theorem dictGet_dictPop_self {α : Type} (m : List (String × α)) (k : String) :
    dictGet (dictPop m k) k = none := by
  induction m with
  | nil => rfl
  | cons p m ih =>
    by_cases hp : p.1 = k
    · simpa [dictPop, List.filter_cons, hp] using ih
    · simpa [dictPop, List.filter_cons, hp, dictGet] using ih

theorem dictGet_dictPop_ne {α : Type} (m : List (String × α)) (k k' : String)
    (h : k' ≠ k) : dictGet (dictPop m k) k' = dictGet m k' := by
  induction m with
  | nil => rfl
  | cons p m ih =>
    obtain ⟨a, v⟩ := p
    by_cases hp : a = k
    · subst hp
      simpa [dictPop, List.filter_cons, dictGet, Ne.symm h] using ih
    · by_cases hq : a = k'
      · simp [dictPop, List.filter_cons, dictGet, hp, hq, h]
      · simpa [dictPop, List.filter_cons, dictGet, hp, hq] using ih

/-! ### Finder lemmas -/

theorem findAgent_eq_none {l : List AgentRow} {i : String} :
    findAgent l i = none ↔ ∀ r ∈ l, r.agent_connection_id ≠ i := by
  induction l with
  | nil => simp [findAgent]
  | cons r l ih =>
    by_cases h : r.agent_connection_id = i
    · simp [findAgent, h]
    · simp [findAgent, h, ih]

theorem findConv_updateWhere {l : List ConvRow} {u : String} {f : ConvRow → ConvRow}
    (hf : ∀ c, (f c).user_connection_id = c.user_connection_id) :
    findConv (updateWhere (fun c => c.user_connection_id == u) f l) u =
      (findConv l u).map f := by
  induction l with
  | nil => rfl
  | cons c l ih =>
    by_cases h : c.user_connection_id = u
    · simp [updateWhere, findConv, h, hf]
    · simpa [updateWhere, findConv, h] using ih

theorem firstMin_eq_none {l : List AgentRow} : firstMinByCount l = none ↔ l = [] := by
  cases l with
  | nil => simp [firstMinByCount]
  | cons a l =>
    simp only [firstMinByCount]
    rcases firstMinByCount l with _ | m <;> simp

theorem head?_insertionSort_eq_firstMin (l : List AgentRow) :
    (List.insertionSort (fun x y : AgentRow => x.user_count ≤ y.user_count) l).head? =
      firstMinByCount l := by
  induction l with
  | nil => rfl
  | cons a l ih =>
    rw [List.insertionSort]
    rcases hsort : List.insertionSort (fun x y : AgentRow => x.user_count ≤ y.user_count) l
      with _ | ⟨b, t⟩
    · have hn : firstMinByCount l = none := by rw [← ih, hsort]; rfl
      simp [List.orderedInsert, firstMinByCount, hn, hsort]
    · have hb : firstMinByCount l = some b := by rw [← ih, hsort]; rfl
      rw [List.orderedInsert]
      by_cases hle : a.user_count ≤ b.user_count
      · have : ¬ b.user_count < a.user_count := by omega
        simp [hle, firstMinByCount, hb, this]
      · have : b.user_count < a.user_count := by omega
        simp [hle, firstMinByCount, hb, this]

theorem IsFirstMin.le_of_mem {l : List AgentRow} {r : AgentRow} (h : IsFirstMin l r) :
    ∀ x ∈ l, r.user_count ≤ x.user_count := by
  obtain ⟨l₁, l₂, rfl, h₁, h₂⟩ := h
  intro x hx
  rcases List.mem_append.mp hx with hx | hx
  · exact le_of_lt (h₁ x hx)
  · rcases List.mem_cons.mp hx with rfl | hx
    · exact le_refl _
    · exact h₂ x hx

theorem IsFirstMin.mem {l : List AgentRow} {r : AgentRow} (h : IsFirstMin l r) : r ∈ l := by
  obtain ⟨l₁, l₂, rfl, -, -⟩ := h
  exact List.mem_append.mpr (Or.inr (List.mem_cons_self _ _))

theorem firstMin_isFirstMin : ∀ {l : List AgentRow} {r : AgentRow},
    firstMinByCount l = some r → IsFirstMin l r := by
  intro l
  induction l with
  | nil => intro r h; cases h
  | cons a l ih =>
    intro r h
    rcases hm : firstMinByCount l with _ | m
    · have : l = [] := firstMin_eq_none.mp hm
      subst this
      simp [firstMinByCount] at h
      subst h
      exact ⟨[], [], rfl, by simp, by simp⟩
    · simp only [firstMinByCount, hm] at h
      by_cases hlt : m.user_count < a.user_count
      · simp only [if_pos hlt] at h
        obtain rfl := Option.some.inj h
        obtain ⟨l₁, l₂, rfl, h₁, h₂⟩ := ih hm
        refine ⟨a :: l₁, l₂, rfl, ?_, h₂⟩
        intro x hx
        rcases List.mem_cons.mp hx with rfl | hx
        · exact hlt
        · exact h₁ x hx
      · simp only [if_neg hlt] at h
        obtain rfl := Option.some.inj h
        have hmin := (ih hm).le_of_mem
        refine ⟨[], l, rfl, by simp, ?_⟩
        intro x hx
        have := hmin x hx
        omega

theorem chosenAgent_eq_firstMin (l : List AgentRow) (d : String) :
    chosenAgent l d = firstMinByCount (eligibleIn l d) :=
  head?_insertionSort_eq_firstMin _

theorem chosenAgent_isFirstMin {l : List AgentRow} {d : String} {r : AgentRow}
    (h : chosenAgent l d = some r) : IsFirstMin (eligibleIn l d) r :=
  firstMin_isFirstMin (by rw [← chosenAgent_eq_firstMin]; exact h)

theorem eligibleIn_subset {l : List AgentRow} {d : String} : eligibleIn l d ⊆ l := by
  intro r hr
  exact List.mem_of_mem_filter (List.mem_of_mem_filter hr)

theorem count_lt_of_mem_eligible {l : List AgentRow} {d : String} {r : AgentRow}
    (h : r ∈ eligibleIn l d) : r.user_count < MAX_USERS_PER_AGENT := by
  have := List.of_mem_filter h
  simpa using this

theorem agentsOk_unique {l : List AgentRow} (h : agentsOk l) {a b : AgentRow}
    (ha : a ∈ l) (hb : b ∈ l) (hid : a.agent_connection_id = b.agent_connection_id) :
    a = b := by
  by_contra hne
  exact (h.1.forall (fun x y hxy => (hxy ∘ Eq.symm)) ha hb hne) hid

theorem agentsOk_updateWhere {l : List AgentRow} {p : AgentRow → Bool}
    {f : AgentRow → AgentRow} (h : agentsOk l)
    (hid : ∀ r, (f r).agent_connection_id = r.agent_connection_id)
    (hcnt : ∀ r ∈ l, p r = true → (f r).user_count ≤ MAX_USERS_PER_AGENT) :
    agentsOk (updateWhere p f l) := by
  constructor
  · rw [updateWhere, List.pairwise_map]
    refine h.1.imp_of_mem ?_
    intro r₁ r₂ h₁ h₂ hne
    by_cases hp₁ : p r₁ <;> by_cases hp₂ : p r₂ <;> simp [hp₁, hp₂, hid, hne]
  · intro r hr
    rw [updateWhere, List.mem_map] at hr
    obtain ⟨x, hx, rfl⟩ := hr
    by_cases hp : p x
    · simpa [hp] using hcnt x hx hp
    · simpa [hp] using h.2 x hx

theorem agentsOk_append_fresh {l : List AgentRow} {row : AgentRow} (h : agentsOk l)
    (hfresh : ∀ r ∈ l, r.agent_connection_id ≠ row.agent_connection_id)
    (hcnt : row.user_count ≤ MAX_USERS_PER_AGENT) : agentsOk (l ++ [row]) := by
  constructor
  · rw [List.pairwise_append]
    refine ⟨h.1, List.pairwise_singleton _ _, ?_⟩
    intro a ha b hb
    simp only [List.mem_singleton] at hb
    subst hb
    exact hfresh a ha
  · intro r hr
    rcases List.mem_append.mp hr with h1 | h2
    · exact h.2 r h1
    · simp only [List.mem_singleton] at h2
      subst h2
      exact hcnt

/-! ### Every handler preserves the agents-table invariant -/

theorem register_core_agentsOk (b : Bool) (dm oa an : Option String) (sid : String)
    (t : Time) (s : ServerState) (h : agentsOk s.db.agents) :
    agentsOk (register_agent_core b dm oa an sid t s).1.db.agents := by
  rcases hdm : truthy dm with _ | d
  · simpa only [register_agent_core, hdm] using h
  · rcases hfind : findAgent s.db.agents (oa.getD sid) with _ | r0
    · cases b
      · simp only [register_agent_core, hdm, hfind, Bool.false_eq_true, if_false]
        refine agentsOk_append_fresh h ?_ (by norm_num [MAX_USERS_PER_AGENT])
        intro r hr
        exact findAgent_eq_none.mp hfind r hr
      · simpa only [register_agent_core, hdm, hfind, if_true] using h
    · cases b
      · simp only [register_agent_core, hdm, hfind, Bool.false_eq_true, if_false]
        exact agentsOk_updateWhere h (fun r => rfl) (fun r hr hp => by simpa using h.2 r hr)
      · simpa only [register_agent_core, hdm, hfind, if_true] using h

theorem offline_agentsOk (a : Option String) (t : Time) (s : ServerState)
    (h : agentsOk s.db.agents) :
    agentsOk (handle_agent_offline a t s).1.db.agents := by
  rcases a with _ | aid
  · simpa only [handle_agent_offline] using h
  · simp only [handle_agent_offline]
    exact agentsOk_updateWhere h (fun r => rfl) (fun r hr hp => by simpa using h.2 r hr)

theorem assignPath_agentsOk (b : Bool) (d u : String) (ui un : Option String)
    (t : Time) (s : ServerState) (h : agentsOk s.db.agents) :
    agentsOk (assignPath b d u ui un t s).1.db.agents := by
  cases he : (onlineAgentsIn s.db.agents d).isEmpty
  · rcases hc : chosenAgent s.db.agents d with _ | chosen
    · simpa only [assignPath, he, hc, Bool.false_eq_true, if_false] using h
    · cases hdup : (b || (findUser s.db.users u).isSome)
      · cases hcdup : (findConv s.db.conversations u).isSome
        · simp only [assignPath, he, hc, hdup, hcdup, Bool.false_eq_true, if_false]
          refine agentsOk_updateWhere h (fun r => rfl) ?_
          intro r hr hp
          have hmem : chosen ∈ eligibleIn s.db.agents d := (chosenAgent_isFirstMin hc).mem
          have hlt : chosen.user_count < MAX_USERS_PER_AGENT := count_lt_of_mem_eligible hmem
          have hid : r.agent_connection_id = chosen.agent_connection_id := by simpa using hp
          have hrc : r = chosen := agentsOk_unique h hr (eligibleIn_subset hmem) hid
          subst hrc
          show ({ r with user_count := r.user_count + 1, last_update := t } : AgentRow).user_count ≤ _
          simp [MAX_USERS_PER_AGENT] at hlt ⊢
          omega
        · simpa only [assignPath, he, hc, hdup, hcdup, Bool.false_eq_true, if_false,
            if_true] using h
      · simpa only [assignPath, he, hc, hdup, Bool.false_eq_true, if_false, if_true] using h
  · simpa only [assignPath, he, if_true] using h

theorem request_core_agentsOk (b : Bool) (dm ou ui un : Option String) (sid : String)
    (t : Time) (s : ServerState) (h : agentsOk s.db.agents) :
    agentsOk (request_live_chat_core b dm ou ui un sid t s).1.db.agents := by
  rcases hdm : truthy dm with _ | d
  · simpa only [request_live_chat_core, hdm] using h
  · rcases hfu : findUser s.db.users (chatUserId ou sid) with _ | w
    · simpa only [request_live_chat_core, hdm, hfu, prependReads] using
        assignPath_agentsOk b d (chatUserId ou sid) ui un t s h
    · rcases hfc : findActiveConv s.db.conversations (chatUserId ou sid) with _ | conv
      · simpa only [request_live_chat_core, hdm, hfu, hfc, prependReads] using
          assignPath_agentsOk b d (chatUserId ou sid) ui un t s h
      · simp only [request_live_chat_core, hdm, hfu, hfc, prependReads, resumePath]
        exact h

theorem send_agentsOk (p rid msg img : Option String) (sid : String) (t : Time)
    (s : ServerState) (h : agentsOk s.db.agents) :
    agentsOk (send_message p rid msg img sid t s).1.db.agents := by
  rcases hr : truthy rid with _ | recip
  · simpa only [send_message, hr] using h
  · by_cases hins : findUser s.db.users
        (conversationKey (senderRole s (p.getD sid)) (p.getD sid) recip) = none ∧
        senderRole s (p.getD sid) = "user" ∧ findAgent s.db.agents (p.getD sid) = none
    · simpa only [send_message, hr, if_pos hins] using h
    · by_cases hfk : senderRole s (p.getD sid) = "agent" ∧
          findAgent s.db.agents (p.getD sid) = none
      · rcases hc : findConv s.db.conversations
            (conversationKey (senderRole s (p.getD sid)) (p.getD sid) recip) with _ | conv
        · simpa only [send_message, hr, if_neg hins, hc, if_pos hfk] using h
        · simpa only [send_message, hr, if_neg hins, hc, if_pos hfk] using h
      · rcases hc : findConv s.db.conversations
            (conversationKey (senderRole s (p.getD sid)) (p.getD sid) recip) with _ | conv
        · simpa only [send_message, hr, if_neg hins, hc, if_neg hfk] using h
        · simpa only [send_message, hr, if_neg hins, hc, if_neg hfk] using h

theorem endChat_agentsOk (u : String) (t : Time) (s : ServerState)
    (h : agentsOk s.db.agents) : agentsOk (end_chat u t s).1.db.agents := by
  rcases hm : dictGet s.mem.users_mapping u with _ | v
  · simpa only [end_chat, hm] using h
  · rcases v with a | us
    · by_cases ha : a = ""
      · simpa only [end_chat, hm, ha, if_true] using h
      · simp only [end_chat, hm, if_neg ha]
        refine agentsOk_updateWhere h (fun r => rfl) ?_
        intro r hr hp
        have hb := h.2 r hr
        show ({ r with user_count := max 0 (r.user_count - 1), last_update := t } :
          AgentRow).user_count ≤ _
        simp [MAX_USERS_PER_AGENT] at hb ⊢
        omega
    · cases hus : us.isEmpty
      · simpa only [end_chat, hm, hus, Bool.false_eq_true, if_false] using h
      · simpa only [end_chat, hm, hus, if_true] using h

theorem disconnect_agentsOk (sid : String) (t : Time) (s : ServerState)
    (h : agentsOk s.db.agents) : agentsOk (handle_disconnect sid t s).1.db.agents := by
  rcases hag : dictGet s.mem.agents sid with _ | am <;>
    rcases hpop : dictGet s.mem.users_mapping sid with _ | v
  · simpa only [handle_disconnect, hag, hpop] using h
  · rcases v with a | us
    · by_cases ha : a = ""
      · simpa only [handle_disconnect, hag, hpop, ha, if_true] using h
      · simpa only [handle_disconnect, hag, hpop, if_neg ha] using h
    · cases hus : us.isEmpty
      · simpa only [handle_disconnect, hag, hpop, hus, Bool.false_eq_true, if_false] using h
      · simpa only [handle_disconnect, hag, hpop, hus, if_true] using h
  · have hupd : agentsOk (updateWhere (fun r => r.agent_connection_id == sid)
        (fun r => { r with status := "offline", last_update := t }) s.db.agents) :=
      agentsOk_updateWhere h (fun r => rfl) (fun r hr hp => by simpa using h.2 r hr)
    simpa only [handle_disconnect, hag, hpop] using hupd
  · have hupd : agentsOk (updateWhere (fun r => r.agent_connection_id == sid)
        (fun r => { r with status := "offline", last_update := t }) s.db.agents) :=
      agentsOk_updateWhere h (fun r => rfl) (fun r hr hp => by simpa using h.2 r hr)
    rcases v with a | us
    · by_cases ha : a = ""
      · simpa only [handle_disconnect, hag, hpop, ha, if_true] using hupd
      · simpa only [handle_disconnect, hag, hpop, if_neg ha] using hupd
    · cases hus : us.isEmpty
      · simpa only [handle_disconnect, hag, hpop, hus, Bool.false_eq_true, if_false] using hupd
      · simpa only [handle_disconnect, hag, hpop, hus, if_true] using hupd

theorem execEvent_agentsOk (e : Event) (s : ServerState) (h : agentsOk s.db.agents) :
    agentsOk (execEvent e s).db.agents := by
  cases e with
  | register dm oa an sid t => exact register_core_agentsOk false dm oa an sid t s h
  | registerDbFail dm oa an sid t => exact register_core_agentsOk true dm oa an sid t s h
  | agentOffline a t => exact offline_agentsOk a t s h
  | requestChat dm ou ui un sid t => exact request_core_agentsOk false dm ou ui un sid t s h
  | requestChatDbFail dm ou ui un sid t => exact request_core_agentsOk true dm ou ui un sid t s h
  | sendMessage p r m i sid t => exact send_agentsOk p r m i sid t s h
  | endChat u t => exact endChat_agentsOk u t s h
  | disconnect sid t => exact disconnect_agentsOk sid t s h

theorem run_agentsOk (es : List Event) : agentsOk (run es).db.agents := by
  suffices hgen : ∀ s : ServerState, agentsOk s.db.agents →
      agentsOk (es.foldl (fun s e => execEvent e s) s).db.agents by
    exact hgen initialState ⟨List.Pairwise.nil, by simp [initialState]⟩
  induction es with
  | nil => intro s hs; exact hs
  | cons e es ih => intro s hs; exact ih _ (execEvent_agentsOk e s hs)

@[simp] theorem emittedOf_nil : emittedOf [] = [] := rfl

@[simp] theorem emittedOf_cons_emit (e : Emit) (tr : List Act) :
    emittedOf (.emit e :: tr) = e :: emittedOf tr := rfl

@[simp] theorem emittedOf_cons_read (rt : ReadTag) (tr : List Act) :
    emittedOf (.dbRead rt :: tr) = emittedOf tr := rfl

@[simp] theorem emittedOf_cons_write (wt : WriteTag) (tr : List Act) :
    emittedOf (.dbWrite wt :: tr) = emittedOf tr := rfl

@[simp] theorem emittedOf_cons_commit (tr : List Act) :
    emittedOf (.dbCommit :: tr) = emittedOf tr := rfl

@[simp] theorem emittedOf_cons_rollback (tr : List Act) :
    emittedOf (.dbRollback :: tr) = emittedOf tr := rfl

@[simp] theorem emittedOf_append (t1 t2 : List Act) :
    emittedOf (t1 ++ t2) = emittedOf t1 ++ emittedOf t2 := by
  simp [emittedOf, List.filterMap_append]

theorem dictGet_mappingAppend_ne (m : List (String × MapVal)) (k u x : String)
    (h : x ≠ k) : dictGet (mappingAppend m k u) x = dictGet m x := by
  rcases hv : dictGet m k with _ | v
  · simp only [mappingAppend, hv]
    exact dictGet_dictSet_ne _ _ _ _ h
  · rcases v with a | us
    · simp only [mappingAppend, hv]
    · simp only [mappingAppend, hv]
      exact dictGet_dictSet_ne _ _ _ _ h

theorem dictGet_setAgent_append (m : List (String × MapVal)) (u a : String) :
    dictGet (mappingAppend (dictSet m u (.toAgent a)) a u) u = some (.toAgent a) := by
  by_cases hau : a = u
  · subst hau
    have hv := dictGet_dictSet_self m a (MapVal.toAgent a)
    simp [mappingAppend, hv, dictGet_dictSet_self]
  · rw [dictGet_mappingAppend_ne _ _ _ _ fun e => hau e.symm]
    exact dictGet_dictSet_self _ _ _

/-- When the requester cannot resume, request_live_chat behaves like its
assignment branch (the extra SELECTs emit nothing and change nothing). -/
theorem request_core_eq_assign (b : Bool) (dm ou ui un : Option String) (sid : String)
    (t : Time) (s : ServerState) (d : String)
    (hd : truthy dm = some d)
    (hres : canResume s.db (chatUserId ou sid) = none) :
    (request_live_chat_core b dm ou ui un sid t s).1 =
      (assignPath b d (chatUserId ou sid) ui un t s).1 ∧
    (request_live_chat_core b dm ou ui un sid t s).2.1 =
      (assignPath b d (chatUserId ou sid) ui un t s).2.1 ∧
    emittedOf (request_live_chat_core b dm ou ui un sid t s).2.2 =
      emittedOf (assignPath b d (chatUserId ou sid) ui un t s).2.2 := by
  unfold canResume at hres
  rcases hfu : findUser s.db.users (chatUserId ou sid) with _ | w
  · simp [request_live_chat_core, hd, hfu, prependReads]
  · rw [hfu] at hres
    simp only [] at hres
    simp [request_live_chat_core, hd, hfu, hres, prependReads]

/-- C1: when assignment runs (the requester holds no resumable session) and
the domain has no online agent, the handler returns `NoneAvailable` and emits
only the no_agents_available event with message 'No agents available'; when
online agents exist but every one is at `MAX_USERS_PER_AGENT`, it returns
`AllAtCapacity` and emits only the all-busy no_agents_available event; in both
cases the whole server state (agents table, users table, conversations table,
users_mapping, queues) is left exactly as it was: no Session, no user record,
no Session Map entry, no load change. -/
theorem assign_failure_paths
    (dm ou ui un : Option String) (sid u : String) (t : Time) (s : ServerState)
    (d : String)
    (hd : truthy dm = some d)
    (hu : chatUserId ou sid = u)
    (hres : canResume s.db u = none) :
    (onlineAgentsIn s.db.agents d = [] →
      (request_live_chat dm ou ui un sid t s).1 = s ∧
      (request_live_chat dm ou ui un sid t s).2.1 = .noneAvailable ∧
      emittedOf (request_live_chat dm ou ui un sid t s).2.2 =
        [.noAgentsAvailable "No agents available" u]) ∧
    (eligibleIn s.db.agents d = [] → onlineAgentsIn s.db.agents d ≠ [] →
      (request_live_chat dm ou ui un sid t s).1 = s ∧
      (request_live_chat dm ou ui un sid t s).2.1 = .allAtCapacity ∧
      emittedOf (request_live_chat dm ou ui un sid t s).2.2 =
        [.noAgentsAvailable "All agents are currently busy. Please try again later." u]) := by
  subst hu
  obtain ⟨h1, h2, h3⟩ := request_core_eq_assign false dm ou ui un sid t s d hd hres
  constructor
  · intro hempty
    have he : (onlineAgentsIn s.db.agents d).isEmpty = true := by simp [hempty]
    refine ⟨?_, ?_, ?_⟩
    · rw [request_live_chat, h1]; simp [assignPath, he]
    · rw [request_live_chat, h2]; simp [assignPath, he]
    · rw [request_live_chat, h3]; simp [assignPath, he]
  · intro helig hne
    have he : (onlineAgentsIn s.db.agents d).isEmpty = false := by
      rcases hl : onlineAgentsIn s.db.agents d with _ | ⟨x, xs⟩
      · exact absurd hl hne
      · rfl
    have hc : chosenAgent s.db.agents d = none := by
      rw [chosenAgent_eq_firstMin, helig]; rfl
    refine ⟨?_, ?_, ?_⟩
    · rw [request_live_chat, h1]; simp [assignPath, he, hc]
    · rw [request_live_chat, h2]; simp [assignPath, he, hc]
    · rw [request_live_chat, h3]; simp [assignPath, he, hc]

theorem assign_failure_paths_wit :
    (request_live_chat (some "d") (some "U0") none none "x" 0 initialState).2.1 =
      ChatResult.noneAvailable ∧
    (request_live_chat (some "d") (some "U3") none none "x" 5 busyState).2.1 =
      ChatResult.allAtCapacity := by
  constructor
  · exact ((assign_failure_paths (some "d") (some "U0") none none "x" "U0" 0
      initialState "d" rfl rfl rfl).1 rfl).2.1
  · exact ((assign_failure_paths (some "d") (some "U3") none none "x" "U3" 5
      busyState "d" rfl rfl (by decide)).2 (by decide) (by decide)).2.1

/-- C2: in every state reachable from the empty server by any sequence of
register_agent, request_live_chat (with or without a store failure at the
users insert), send_message, end_chat, agent_offline and disconnect events,
every row of the agents table satisfies
`user_count ≤ MAX_USERS_PER_AGENT = 2`: assignment increments only an agent it
just selected with a count strictly below the cap, and no other handler
increases any count. -/
theorem load_le_capacity (es : List Event) (r : AgentRow)
    (hr : r ∈ (run es).db.agents) : r.user_count ≤ MAX_USERS_PER_AGENT :=
  (run_agentsOk es).2 r hr

theorem load_le_capacity_wit :
    ((⟨"A1", some "n1", "d", "online", 0, 0⟩ : AgentRow) ∈
      (run [.register (some "d") none (some "n1") "A1" 0]).db.agents) ∧
    (⟨"A1", some "n1", "d", "online", 0, 0⟩ : AgentRow).user_count ≤
      MAX_USERS_PER_AGENT :=
  ⟨by decide, load_le_capacity [.register (some "d") none (some "n1") "A1" 0] _ (by decide)⟩

/-- C8: with a Session Map entry for the user, end_chat marks every
conversation of that user inactive, stamps the user's disconnection time,
decrements the mapped agent's load with a floor at zero (the updated value is
never negative), emits chat_ended to both parties after the commit, and
removes both directions of the Session Map link, leaving other agents' rows
untouched; with no Session Map entry it is a complete no-op. -/
theorem end_chat_spec (u : String) (t : Time) (s : ServerState) :
    (dictGet s.mem.users_mapping u = none → end_chat u t s = (s, [])) ∧
    (∀ a, dictGet s.mem.users_mapping u = some (.toAgent a) → a ≠ "" →
      ((∀ c ∈ (end_chat u t s).1.db.conversations,
          c.user_connection_id = u → c.status = some false) ∧
       (∀ w ∈ (end_chat u t s).1.db.users,
          w.user_connection_id = u → w.disconnection_time = some t) ∧
       (∀ r ∈ s.db.agents, r.agent_connection_id = a →
          ({ r with user_count := max 0 (r.user_count - 1), last_update := t } ∈
            (end_chat u t s).1.db.agents)) ∧
       (∀ r ∈ (end_chat u t s).1.db.agents, r.agent_connection_id = a →
          0 ≤ r.user_count) ∧
       (∀ r ∈ (end_chat u t s).1.db.agents, r.agent_connection_id ≠ a →
          r ∈ s.db.agents) ∧
       (end_chat u t s).2 =
         [.dbWrite .conversationsUpdate, .dbWrite .usersUpdate,
          .dbWrite .agentsDecrement, .dbCommit,
          .emit (.chatEnded u a), .emit (.chatEnded a u)] ∧
       dictGet (end_chat u t s).1.mem.users_mapping u = none ∧
       (∀ us, dictGet s.mem.users_mapping a = some (.toUsers us) →
          dictGet (end_chat u t s).1.mem.users_mapping a =
            some (.toUsers (us.erase u))))) := by
  constructor
  · intro hm
    simp [end_chat, hm]
  · intro a hm ha
    simp only [end_chat, hm, if_neg ha]
    refine ⟨?_, ?_, ?_, ?_, ?_, trivial, ?_, ?_⟩
    · intro c hcm hcu
      rw [updateWhere, List.mem_map] at hcm
      obtain ⟨x, hx, rfl⟩ := hcm
      by_cases hp : x.user_connection_id = u
      · simp [hp]
      · simp only [hp, beq_iff_eq, if_false, decide_eq_true_eq] at hcu
    · intro w hwm hwu
      rw [updateWhere, List.mem_map] at hwm
      obtain ⟨x, hx, rfl⟩ := hwm
      by_cases hp : x.user_connection_id = u
      · simp [hp]
      · simp only [hp, beq_iff_eq, if_false, decide_eq_true_eq] at hwu
    · intro r hr hid
      rw [updateWhere, List.mem_map]
      exact ⟨r, hr, by simp [hid]⟩
    · intro r hr hid
      rw [updateWhere, List.mem_map] at hr
      obtain ⟨x, hx, rfl⟩ := hr
      by_cases hp : x.agent_connection_id = a
      · simp only [hp, beq_self_eq_true, if_true]
        exact le_max_left 0 _
      · simp only [hp, beq_iff_eq, if_false, decide_eq_true_eq] at hid
    · intro r hr hid
      rw [updateWhere, List.mem_map] at hr
      obtain ⟨x, hx, rfl⟩ := hr
      by_cases hp : x.agent_connection_id = a
      · simp only [hp, beq_self_eq_true, if_true] at hid
        simp at hid
      · simpa [hp] using hx
    · rcases hm1 : dictGet (dictPop s.mem.users_mapping u) a with _ | v
      · simpa [hm1] using dictGet_dictPop_self s.mem.users_mapping u
      · rcases v with a' | us'
        · simpa [hm1] using dictGet_dictPop_self s.mem.users_mapping u
        · have hau : ¬ (a = u) := by
            intro e
            rw [e, dictGet_dictPop_self] at hm1
            cases hm1
          simp only [hm1]
          rw [dictGet_dictSet_ne _ _ _ _ fun e => hau e.symm]
          exact dictGet_dictPop_self s.mem.users_mapping u
    · intro us hus
      have hau : u ≠ a := by
        intro e
        rw [e, hus] at hm
        cases hm
      have hm1 : dictGet (dictPop s.mem.users_mapping u) a = some (.toUsers us) := by
        rw [dictGet_dictPop_ne _ _ _ (Ne.symm hau)]
        exact hus
      simp only [hm1]
      exact dictGet_dictSet_self _ _ _

theorem end_chat_spec_wit :
    dictGet (end_chat "U1" 7 chatState).1.mem.users_mapping "U1" = none ∧
    end_chat "Unknown" 7 chatState = (chatState, []) := by
  refine ⟨?_, ?_⟩
  · exact ((end_chat_spec "U1" 7 chatState).2 "A1" (by decide)
      (by decide)).2.2.2.2.2.2.1
  · exact (end_chat_spec "Unknown" 7 chatState).1 (by decide)

/-- C9: a transport disconnect of a mapped, non-agent connection leaves the
conversations table (in particular every Session's active flag) and the
agents table (every load counter) unchanged, as well as the in-memory agent
registry and domain queues; its only effects are stamping the user's
disconnection time, removing both directions of the Session Map link, and
emitting chat_ended to the counterpart agent after the commit. -/
theorem disconnect_frame (sid : String) (t : Time) (s : ServerState) (a : String)
    (hnotagent : dictGet s.mem.agents sid = none)
    (hmap : dictGet s.mem.users_mapping sid = some (.toAgent a))
    (ha : a ≠ "") :
    (handle_disconnect sid t s).1.db.conversations = s.db.conversations ∧
    (handle_disconnect sid t s).1.db.agents = s.db.agents ∧
    (handle_disconnect sid t s).1.mem.agents = s.mem.agents ∧
    (handle_disconnect sid t s).1.mem.agent_queues = s.mem.agent_queues ∧
    (handle_disconnect sid t s).1.db.users =
      updateWhere (fun w => w.user_connection_id == sid)
        (fun w => { w with disconnection_time := some t }) s.db.users ∧
    dictGet (handle_disconnect sid t s).1.mem.users_mapping sid = none ∧
    (∀ us, dictGet s.mem.users_mapping a = some (.toUsers us) →
        dictGet (handle_disconnect sid t s).1.mem.users_mapping a =
          some (.toUsers (us.erase sid))) ∧
    (handle_disconnect sid t s).2 =
      [.dbWrite .usersUpdate, .dbCommit, .emit (.chatEnded sid a)] := by
  simp only [handle_disconnect, hnotagent, hmap, if_neg ha, List.nil_append]
  refine ⟨trivial, trivial, trivial, trivial, trivial, ?_, ?_, trivial⟩
  · rcases hm1 : dictGet (dictPop s.mem.users_mapping sid) a with _ | v
    · simpa [hm1] using dictGet_dictPop_self s.mem.users_mapping sid
    · rcases v with a' | us'
      · simpa [hm1] using dictGet_dictPop_self s.mem.users_mapping sid
      · have hau : ¬ (a = sid) := by
          intro e
          rw [e, dictGet_dictPop_self] at hm1
          cases hm1
        simp only [hm1]
        rw [dictGet_dictSet_ne _ _ _ _ fun e => hau e.symm]
        exact dictGet_dictPop_self s.mem.users_mapping sid
  · intro us hus
    have hau : sid ≠ a := by
      intro e
      rw [e, hus] at hmap
      cases hmap
    have hm1 : dictGet (dictPop s.mem.users_mapping sid) a = some (.toUsers us) := by
      rw [dictGet_dictPop_ne _ _ _ (Ne.symm hau)]
      exact hus
    simp only [hm1]
    exact dictGet_dictSet_self _ _ _

theorem disconnect_frame_wit :
    (handle_disconnect "U1" 9 chatState).1.db.conversations =
      chatState.db.conversations ∧
    (handle_disconnect "U1" 9 chatState).1.db.agents = chatState.db.agents ∧
    (handle_disconnect "U1" 9 chatState).2 =
      [.dbWrite .usersUpdate, .dbCommit, .emit (.chatEnded "U1" "A1")] := by
  have h := disconnect_frame "U1" 9 chatState "A1" (by decide) (by decide) (by decide)
  exact ⟨h.1, h.2.1, h.2.2.2.2.2.2.2⟩

/-- C10 amended: when the sender of send_message is in the in-memory agent
registry, has a durable agents row (the row the conversations foreign key
must reference), and the recipient key already has a conversation row, the
handler sets that row's status to true and rebinds its agent_connection_id to
the sender while appending the message — so a session previously marked
inactive by end_chat becomes active again — and the agents table (hence every
load counter) is unchanged and no new conversation row is created.  Without a
durable agents row the UPDATE violates the foreign key and rolls back. -/
theorem agent_message_reactivates
    (pid rid msg img : Option String) (sid : String) (t : Time) (s : ServerState)
    (p recip : String) (conv : ConvRow) (arow : AgentRow)
    (hp : pid.getD sid = p)
    (hr : truthy rid = some recip)
    (hagent : (dictGet s.mem.agents p).isSome = true)
    (harow : findAgent s.db.agents p = some arow)
    (hconv : findConv s.db.conversations recip = some conv) :
    findConv (send_message pid rid msg img sid t s).1.db.conversations recip =
      some { conv with
        messages := conv.messages ++ [⟨t, "agent", (msg.getD "").trim, img⟩],
        last_update := t, agent_connection_id := some p, status := some true } ∧
    (send_message pid rid msg img sid t s).1.db.agents = s.db.agents ∧
    (send_message pid rid msg img sid t s).1.db.conversations.length =
      s.db.conversations.length := by
  subst hp
  have hrole : senderRole s (pid.getD sid) = "agent" := by
    simp [senderRole, hagent]
  have hkey : conversationKey "agent" (pid.getD sid) recip = recip := rfl
  have hfind : findConv (updateWhere
      (fun c => c.user_connection_id == recip)
      (fun c => { c with
        messages := conv.messages ++ [⟨t, "agent", (msg.getD "").trim, img⟩],
        last_update := t, agent_connection_id := some (pid.getD sid),
        status := some true }) s.db.conversations) recip =
      some { conv with
        messages := conv.messages ++ [⟨t, "agent", (msg.getD "").trim, img⟩],
        last_update := t, agent_connection_id := some (pid.getD sid),
        status := some true } := by
    rw [@findConv_updateWhere s.db.conversations recip
      (fun c => { c with
        messages := conv.messages ++ [⟨t, "agent", (msg.getD "").trim, img⟩],
        last_update := t, agent_connection_id := some (pid.getD sid),
        status := some true }) (fun c => rfl), hconv]
    rfl
  refine ⟨?_, ?_, ?_⟩
  · simpa [send_message, hr, hrole, hkey, hconv, harow] using hfind
  · simp [send_message, hr, hrole, hkey, hconv, harow]
  · simp [send_message, hr, hrole, hkey, hconv, harow, updateWhere]

theorem agent_message_reactivates_wit :
    (findConv (send_message (some "A1") (some "U1") (some "hello") none "x" 8
      endedState).1.db.conversations "U1").map ConvRow.status = some (some true) ∧
    (findConv (send_message (some "A1") (some "U1") (some "hello") none "x" 8
      endedState).1.db.conversations "U1").map ConvRow.agent_connection_id =
      some (some "A1") ∧
    (send_message (some "A1") (some "U1") (some "hello") none "x" 8
      endedState).1.db.agents = endedState.db.agents := by
  have h := agent_message_reactivates (some "A1") (some "U1") (some "hello") none "x" 8
    endedState "A1" "U1" ⟨"U1", some "A1", some "un1", [], 7, some false⟩
    ⟨"A1", some "n1", "d", "online", 0, 7⟩
    rfl rfl (by decide) (by decide) (by decide)
  refine ⟨?_, ?_, h.2.1⟩ <;> rw [h.1] <;> rfl

/-- C10 counterexample: the sender A1 is in the in-memory agent registry and
the recipient U1 has an existing conversation record, yet because A1's
durable registration failed the agent-role UPDATE violates the
conversations-to-agents foreign key and rolls back: the whole state is
unchanged, the conversation stays inactive and still bound to A2 — it is not
reactivated and not rebound to the sender, contrary to the claim. -/
theorem phantom_agent_no_reactivate_cex :
    (dictGet phantomState.mem.agents "A1").isSome = true ∧
    (findConv phantomState.db.conversations "U1").isSome = true ∧
    (send_message (some "A1") (some "U1") (some "hi") none "x" 4 phantomState).1 =
      phantomState ∧
    (findConv (send_message (some "A1") (some "U1") (some "hi") none "x" 4
      phantomState).1.db.conversations "U1").map ConvRow.status =
      some (some false) ∧
    (findConv (send_message (some "A1") (some "U1") (some "hi") none "x" 4
      phantomState).1.db.conversations "U1").map ConvRow.agent_connection_id =
      some (some "A2") := by decide

/-- C4 counterexample: a request_live_chat whose durable users insert fails
rolls the store back (no users row, no load increment) yet leaves the fresh
users_mapping entries in memory, so the in-memory state does not equal what
corresponds to the committed durable state. -/
theorem dbfail_mapping_persists_cex :
    (request_live_chat_dbFail (some "d") (some "U1") none none "x" 1
      agentOnlyState).1.db = agentOnlyState.db ∧
    dictGet (request_live_chat_dbFail (some "d") (some "U1") none none "x" 1
      agentOnlyState).1.mem.users_mapping "U1" = some (.toAgent "A1") ∧
    findUser (request_live_chat_dbFail (some "d") (some "U1") none none "x" 1
      agentOnlyState).1.db.users "U1" = none := by decide

theorem dictGet_append_of_none {α : Type} (m1 m2 : List (String × α)) (k : String)
    (h : dictGet m1 k = none) : dictGet (m1 ++ m2) k = dictGet m2 k := by
  induction m1 with
  | nil => rfl
  | cons p m ih =>
    by_cases hp : p.1 = k
    · simp [dictGet, hp] at h
    · simp only [dictGet, hp, if_false, List.cons_append] at h ⊢
      exact ih h

theorem dictGet_queueAppend (qs : List (String × List String)) (d a : String) :
    ∃ q, dictGet (queueAppend qs d a) d = some q ∧ a ∈ q := by
  unfold queueAppend
  rcases hq : dictGet qs d with _ | q
  · simp only [hq]
    refine ⟨[a], ?_, by simp⟩
    rw [dictGet_append_of_none _ _ _ hq]
    show (if d = d then some [a] else none) = some [a]
    exact if_pos rfl
  · simp only [hq]
    exact ⟨q ++ [a], by rw [dictGet_dictSet_self], by simp⟩

/-- C4 amended: when a durable-store call fails the transaction's partial
durable writes are rolled back and a single error event goes to the
initiating connection, but in-memory mutations made before the failing call
are NOT rolled back: a request_live_chat whose users insert fails keeps the
just-created Session Map entry while the durable state is unchanged, and a
register_agent whose agents insert fails keeps the new agent in the in-memory
registry and its domain queue while the durable state is unchanged. -/
theorem dbfail_state_effects
    (dm ou ui un : Option String) (sid u : String) (t : Time) (s : ServerState)
    (d : String) (chosen : AgentRow)
    (hd : truthy dm = some d)
    (hu : chatUserId ou sid = u)
    (hres : canResume s.db u = none)
    (hc : chosenAgent s.db.agents d = some chosen) :
    ((request_live_chat_dbFail dm ou ui un sid t s).1.db = s.db ∧
     (request_live_chat_dbFail dm ou ui un sid t s).2.1 = .dbError ∧
     emittedOf (request_live_chat_dbFail dm ou ui un sid t s).2.2 =
       [.errorMsg "Failed to assign live chat due to a database error." u] ∧
     dictGet (request_live_chat_dbFail dm ou ui un sid t s).1.mem.users_mapping u =
       some (.toAgent chosen.agent_connection_id)) ∧
    (∀ (dm2 oa an : Option String) (sid2 : String) (t2 : Time) (s2 : ServerState)
        (d2 : String),
      truthy dm2 = some d2 →
      findAgent s2.db.agents (oa.getD sid2) = none →
      (register_agent_dbFail dm2 oa an sid2 t2 s2).1.db = s2.db ∧
      dictGet (register_agent_dbFail dm2 oa an sid2 t2 s2).1.mem.agents
        (oa.getD sid2) = some ⟨"online", d2, an⟩ ∧
      emittedOf (register_agent_dbFail dm2 oa an sid2 t2 s2).2.2 =
        [.errorMsg "Failed to register agent due to a database error." sid2] ∧
      ∃ q, dictGet (register_agent_dbFail dm2 oa an sid2 t2 s2).1.mem.agent_queues
        d2 = some q ∧ (oa.getD sid2) ∈ q) := by
  constructor
  · subst hu
    obtain ⟨h1, h2, h3⟩ := request_core_eq_assign true dm ou ui un sid t s d hd hres
    have hmem := (chosenAgent_isFirstMin hc).mem
    have hav : chosen ∈ onlineAgentsIn s.db.agents d := List.mem_of_mem_filter hmem
    have he : (onlineAgentsIn s.db.agents d).isEmpty = false := by
      rcases hl : onlineAgentsIn s.db.agents d with _ | ⟨x, xs⟩
      · rw [hl] at hav; cases hav
      · rfl
    refine ⟨?_, ?_, ?_, ?_⟩
    · rw [request_live_chat_dbFail, h1]; simp [assignPath, he, hc]
    · rw [request_live_chat_dbFail, h2]; simp [assignPath, he, hc]
    · rw [request_live_chat_dbFail, h3]; simp [assignPath, he, hc]
    · rw [request_live_chat_dbFail, h1]
      simp only [assignPath, he, hc, Bool.false_eq_true, if_false, if_true]
      exact dictGet_setAgent_append _ _ _
  · intro dm2 oa an sid2 t2 s2 d2 hd2 hfind2
    simp only [register_agent_dbFail, register_agent_core, hd2, hfind2, if_true]
    refine ⟨trivial, ?_, ?_, ?_⟩
    · exact dictGet_dictSet_self _ _ _
    · rfl
    · exact dictGet_queueAppend _ _ _

theorem dbfail_state_effects_wit :
    dictGet (request_live_chat_dbFail (some "d") (some "U7") none none "x" 1
      agentOnlyState).1.mem.users_mapping "U7" = some (.toAgent "A1") ∧
    (register_agent_dbFail (some "d") none (some "n9") "A9" 0 initialState).1.db =
      initialState.db := by
  constructor
  · exact (dbfail_state_effects (some "d") (some "U7") none none "x" "U7" 1
      agentOnlyState "d" ⟨"A1", some "n1", "d", "online", 0, 0⟩
      rfl rfl (by decide) (by decide)).1.2.2.2
  · exact ((dbfail_state_effects (some "d") (some "U7") none none "x" "U7" 1
      agentOnlyState "d" ⟨"A1", some "n1", "d", "online", 0, 0⟩
      rfl rfl (by decide) (by decide)).2 (some "d") none (some "n9") "A9" 0
      initialState "d" rfl (by decide)).1

/-- C7 counterexample: after agent_offline, A1 is still a known Agent record
in the durable agents table, yet send_message classifies a message from A1 as
coming from a user — the role is not determined by known-Agent-record
membership (online or offline), contrary to the claim. -/
theorem offline_agent_role_cex :
    ¬ (senderRole offlineAgentState "A1" = "agent" ↔
        (findAgent offlineAgentState.db.agents "A1").isSome = true) := by decide

theorem mem_updateWhere_key_frame {l : List ConvRow} {k : String}
    {f : ConvRow → ConvRow}
    (hf : ∀ c, (f c).user_connection_id = c.user_connection_id)
    {c : ConvRow} (hc : c ∈ updateWhere (fun c => c.user_connection_id == k) f l)
    (hne : c.user_connection_id ≠ k) : c ∈ l := by
  rw [updateWhere, List.mem_map] at hc
  obtain ⟨x, hx, rfl⟩ := hc
  by_cases hp : x.user_connection_id = k
  · simp only [hp, beq_self_eq_true, if_true] at hne ⊢
    rw [hf] at hne
    exact absurd hp hne
  · simpa [hp] using hx

/-- C7 amended: the sender role of send_message is agent exactly when the
sender identity is a key of the in-memory agents registry — which holds only
currently-online agents, so a message from an offline agent is classified as
user — and the transcript key is the sender when the role is user and the
recipient when the role is agent: any conversation row whose key differs from
that transcript key is left untouched by the relay. -/
theorem role_by_memory_registry (s : ServerState) (p recip : String) :
    (senderRole s p = "agent" ↔ (dictGet s.mem.agents p).isSome = true) ∧
    (senderRole s p = "user" ↔ dictGet s.mem.agents p = none) ∧
    conversationKey (senderRole s p) p recip =
      (if (dictGet s.mem.agents p).isSome = true then recip else p) ∧
    (∀ (rid msg img : Option String) (sid : String) (t : Time) (c : ConvRow),
      truthy rid = some recip →
      c ∈ (send_message (some p) rid msg img sid t s).1.db.conversations →
      c.user_connection_id ≠ conversationKey (senderRole s p) p recip →
      c ∈ s.db.conversations) := by
  refine ⟨?_, ?_, ?_, ?_⟩
  · rcases hv : dictGet s.mem.agents p with _ | v <;> simp [senderRole, hv]
  · rcases hv : dictGet s.mem.agents p with _ | v <;> simp [senderRole, hv]
  · rcases hv : dictGet s.mem.agents p with _ | v <;>
      simp [senderRole, conversationKey, hv]
  · intro rid msg img sid t c hrid hc hne
    rcases hv : dictGet s.mem.agents p with _ | v
    · have hrole : senderRole s p = "user" := by simp [senderRole, hv]
      rw [hrole] at hne
      have hkey : conversationKey "user" p recip = p := rfl
      rw [hkey] at hne
      by_cases hcond : findUser s.db.users p = none ∧ findAgent s.db.agents p = none
      · simp [send_message, hrid, hrole, hkey, hcond.1, hcond.2] at hc
        exact hc
      · rcases hf : findConv s.db.conversations p with _ | conv
        · simp [send_message, hrid, hrole, hkey, hf, hcond] at hc
          rcases hc with h1 | h2
          · exact h1
          · subst h2
            exact absurd rfl hne
        · simp [send_message, hrid, hrole, hkey, hf, hcond] at hc
          refine mem_updateWhere_key_frame ?_ hc hne
          intro c
          rfl
    · have hrole : senderRole s p = "agent" := by simp [senderRole, hv]
      rw [hrole] at hne
      have hkey : conversationKey "agent" p recip = recip := rfl
      rw [hkey] at hne
      by_cases hfa : findAgent s.db.agents p = none
      · rcases hf : findConv s.db.conversations recip with _ | conv <;>
          simp [send_message, hrid, hrole, hkey, hf, hfa] at hc <;>
          exact hc
      · rcases hf : findConv s.db.conversations recip with _ | conv
        · simp [send_message, hrid, hrole, hkey, hf, hfa] at hc
          rcases hc with h1 | h2
          · exact h1
          · subst h2
            exact absurd rfl hne
        · simp [send_message, hrid, hrole, hkey, hf, hfa] at hc
          refine mem_updateWhere_key_frame ?_ hc hne
          intro c
          rfl

theorem role_by_memory_registry_wit :
    senderRole offlineAgentState "A1" = "user" ∧
    conversationKey (senderRole chatState "A1") "A1" "U1" = "U1" ∧
    senderRole chatState "A1" = "agent" := by
  refine ⟨?_, ?_, ?_⟩
  · exact (role_by_memory_registry offlineAgentState "A1" "U1").2.1.mpr (by decide)
  · rw [(role_by_memory_registry chatState "A1" "U1").2.2.1]
    decide
  · exact (role_by_memory_registry chatState "A1" "U1").1.mpr (by decide)
